import Mathlib

/-!
Verification development for the Job Relevance Analysis & Asset Ranking
Pipeline (`backend/intelligent_selection_lite.py`).

Texts are modelled as `String` / `List Char`; Python floats are modelled as
exact rationals (`ℚ`): every number the pipeline manipulates is a small
integer count or a ratio of such counts, so the rational model reflects the
intended arithmetic of the scoring formulas.  Regular-expression search is
modelled by a small executable matcher over a pattern AST mirroring the
regex literals of the source.
-/

set_option maxRecDepth 10000

/-! ## Characters and basic text operations -/

/-- `text.lower()` on a list of characters (ASCII-oriented, as in the source's
English catalogs). -/
def canon (s : List Char) : List Char := s.map Char.toLower

/-- A regex word character (`\w`): alphanumeric or underscore. -/
def isWordChar (c : Char) : Bool := c.isAlphanum || c = '_'

/-- A regex whitespace character (`\s`), also Python `str.strip`/`str.split`
whitespace for the ASCII texts involved. -/
def isSpaceChar (c : Char) : Bool :=
  c = ' ' || c = '\t' || c = '\n' || c = '\r' || c = '\x0b' || c = '\x0c'

/-- Boolean list-prefix test. -/
def pfx : List Char → List Char → Bool
  | [], _ => true
  | _ :: _, [] => false
  | a :: as, b :: bs => a = b && pfx as bs

/-- Python's substring containment `needle in hay`. -/
def containsSub (needle : List Char) : List Char → Bool
  | [] => pfx needle []
  | c :: rest => pfx needle (c :: rest) || containsSub needle rest

/-- Accumulator for `tokenize`: `acc` holds the current word-character run,
reversed. -/
def tokenizeAux : List Char → List Char → List (List Char)
  | [], acc => if acc = [] then [] else [acc.reverse]
  | c :: cs, acc =>
    if isWordChar c then tokenizeAux cs (c :: acc)
    else if acc = [] then tokenizeAux cs []
    else acc.reverse :: tokenizeAux cs []

/-- `re.findall(r'\b\w+\b', text)`: the maximal runs of word characters of
`text`, in order.  (A `\b\w+\b` match is exactly a maximal word-character
run: `\w+` is greedy and both ends of a run are word boundaries.) -/
def tokenize (s : List Char) : List (List Char) := tokenizeAux s []

/-- The set of word tokens of a text (`set(re.findall(r'\b\w+\b', text))`). -/
def tokenSet (s : List Char) : Finset (List Char) := (tokenize s).toFinset

/-- Python `str.split()` with no separator: maximal runs of
non-whitespace characters. -/
def wsSplitAux : List Char → List Char → List (List Char)
  | [], acc => if acc = [] then [] else [acc.reverse]
  | c :: cs, acc =>
    if isSpaceChar c then
      if acc = [] then wsSplitAux cs [] else acc.reverse :: wsSplitAux cs []
    else wsSplitAux cs (c :: acc)

def wsSplit (s : List Char) : List (List Char) := wsSplitAux s []

/-- Python `str.split(sep)` for a single-character separator: always returns
at least one (possibly empty) piece. -/
def splitOnChar (sep : Char) : List Char → List (List Char)
  | [] => [[]]
  | c :: cs =>
    match splitOnChar sep cs with
    | [] => [[]]
    | l :: ls => if c = sep then [] :: l :: ls else (c :: l) :: ls

/-- Python `str.strip()`. -/
def stripChars (s : List Char) : List Char :=
  ((s.dropWhile isSpaceChar).reverse.dropWhile isSpaceChar).reverse

/-- `str.lower()` on `String`. -/
def lowerStr (s : String) : String := ⟨canon s.data⟩

/-! ## Text Similarity Estimator (`calculate_text_similarity`) -/

/-- The word-overlap (Jaccard) ratio of two token sets, with the source's
guards: `0.0` if either set is empty, and `0.0` if the union is empty. -/
def simSets (words1 words2 : Finset (List Char)) : ℚ :=
  if words1 = ∅ ∨ words2 = ∅ then 0
  else if 0 < (words1 ∪ words2).card then
    ((words1 ∩ words2).card : ℚ) / ((words1 ∪ words2).card : ℚ)
  else 0

/-- `calculate_text_similarity`: tokenize each lowercased text into its set of
word tokens and return intersection-over-union. -/
def calculate_text_similarity (text1 text2 : String) : ℚ :=
  simSets (tokenSet (canon text1.data)) (tokenSet (canon text2.data))

theorem simSets_nonneg (w1 w2 : Finset (List Char)) : 0 ≤ simSets w1 w2 := by
  unfold simSets
  split
  · exact le_refl 0
  · split
    · exact div_nonneg (Nat.cast_nonneg _) (Nat.cast_nonneg _)
    · exact le_refl 0

theorem simSets_comm (w1 w2 : Finset (List Char)) : simSets w1 w2 = simSets w2 w1 := by
  unfold simSets
  rw [Finset.inter_comm, Finset.union_comm]
  by_cases h1 : w1 = ∅ <;> by_cases h2 : w2 = ∅ <;> simp [h1, h2]

theorem calculate_text_similarity_nonneg (a b : String) :
    0 ≤ calculate_text_similarity a b := simSets_nonneg _ _

/-! ## A small regular-expression matcher

The source uses `re.search`/`re.findall` on a fixed family of pattern
literals.  `RE` mirrors the constructs those literals use; `mrun` is a
backtracking continuation-passing matcher with Python's leftmost,
greedy/lazy semantics.  `fuel` only bounds the recursion depth; it is chosen
far larger than the depth any match over the input can reach, so the fueled
matcher agrees with the unbounded semantics on every input. -/

inductive RE : Type where
  | eps
  | lit (c : Char)
  | anyc
  | digit
  | space
  | wordc
  | cset (cs : List Char)
  | seq (r1 r2 : RE)
  | alt (r1 r2 : RE)
  | star (r : RE)
  | starL (r : RE)
  | wb
  | look (r : RE)
  | eol
  | bolML
  | grp (r : RE)

/-- Result of a match attempt: the character preceding the rest, the rest of
the input after the match, and the text captured by group 1 (if any). -/
abbrev MRes := Option (Option Char × List Char × Option (List Char))

/-- `\b`: the positions before `s` and at its head disagree on word-ness.
`prev` is the character immediately before the current position (`none` at
the start of the haystack). -/
def atBoundary (prev : Option Char) (s : List Char) : Bool :=
  (match prev with | none => false | some c => isWordChar c) !=
  (match s with | [] => false | c :: _ => isWordChar c)

def mrun : Nat → RE → Option Char → List Char → Option (List Char) →
    (Option Char → List Char → Option (List Char) → MRes) → MRes
  | 0, _, _, _, _, _ => none
  | Nat.succ fuel, re, prev, s, cap, k =>
    match re with
    | .eps => k prev s cap
    | .lit a =>
      match s with
      | [] => none
      | c :: rest => if c = a then k (some c) rest cap else none
    | .anyc =>
      match s with
      | [] => none
      | c :: rest => if c = '\n' then none else k (some c) rest cap
    | .digit =>
      match s with
      | [] => none
      | c :: rest => if c.isDigit then k (some c) rest cap else none
    | .space =>
      match s with
      | [] => none
      | c :: rest => if isSpaceChar c then k (some c) rest cap else none
    | .wordc =>
      match s with
      | [] => none
      | c :: rest => if isWordChar c then k (some c) rest cap else none
    | .cset cs =>
      match s with
      | [] => none
      | c :: rest => if cs.contains c then k (some c) rest cap else none
    | .seq r1 r2 => mrun fuel r1 prev s cap (fun p2 s2 c2 => mrun fuel r2 p2 s2 c2 k)
    | .alt r1 r2 =>
      match mrun fuel r1 prev s cap k with
      | some res => some res
      | none => mrun fuel r2 prev s cap k
    | .star r =>
      match mrun fuel r prev s cap (fun p2 s2 c2 =>
          if s2.length < s.length then mrun fuel (.star r) p2 s2 c2 k else none) with
      | some res => some res
      | none => k prev s cap
    | .starL r =>
      match k prev s cap with
      | some res => some res
      | none =>
        mrun fuel r prev s cap (fun p2 s2 c2 =>
          if s2.length < s.length then mrun fuel (.starL r) p2 s2 c2 k else none)
    | .wb => if atBoundary prev s then k prev s cap else none
    | .look r =>
      match mrun fuel r prev s cap (fun p2 s2 c2 => some (p2, s2, c2)) with
      | some _ => k prev s cap
      | none => none
    | .eol =>
      match s with
      | [] => k prev s cap
      | c :: _ => if c = '\n' then k prev s cap else none
    | .bolML =>
      match prev with
      | none => k prev s cap
      | some c => if c = '\n' then k prev s cap else none
    | .grp r =>
      mrun fuel r prev s cap (fun p2 s2 _ =>
        k p2 s2 (some (s.take (s.length - s2.length))))

/-- Structural size of a pattern, used only to budget matcher fuel. -/
def RE.size : RE → Nat
  | .seq a b => a.size + b.size + 1
  | .alt a b => a.size + b.size + 1
  | .star a => a.size + 1
  | .starL a => a.size + 1
  | .look a => a.size + 1
  | .grp a => a.size + 1
  | _ => 1

/-- Generous depth budget: the matcher's call depth is linear in the input
length plus the pattern size, so this bound never truncates a search. -/
def matchFuel (r : RE) (s : List Char) : Nat := (s.length + 2) * (r.size + 2) * 4

/-- Try to match `r` at the start of `s`; on failure slide one character to
the right (the scan of `re.search`, yielding the leftmost match). -/
def searchFrom (r : RE) : Option Char → List Char → MRes
  | prev, s =>
    match mrun (matchFuel r s) r prev s none (fun p2 s2 c2 => some (p2, s2, c2)) with
    | some res => some res
    | none =>
      match s with
      | [] => none
      | c :: rest => searchFrom r (some c) rest

/-- `re.search(r, s) is not None`. -/
def hasMatch (r : RE) (s : List Char) : Bool := (searchFrom r none s).isSome

/-- `re.findall` for a pattern with one capture group: repeatedly take the
leftmost match, collect its group, and continue after the match (advancing
one character past an empty match, as Python does). -/
def findAllCaps (r : RE) : Nat → Option Char → List Char → List (List Char)
  | 0, _, _ => []
  | Nat.succ n, prev, s =>
    match searchFrom r prev s with
    | none => []
    | some (p2, s2, cap) =>
      let c := cap.getD []
      if s2.length < s.length then c :: findAllCaps r n p2 s2
      else
        match s2 with
        | [] => [c]
        | c2 :: rest => c :: findAllCaps r n (some c2) rest

def findAll (r : RE) (s : List Char) : List (List Char) :=
  findAllCaps r (s.length + 1) none s

/-! ### Pattern construction helpers -/

def rcat : List RE → RE
  | [] => RE.eps
  | [r] => r
  | r :: rs => RE.seq r (rcat rs)

def rstr (s : String) : RE := rcat (s.data.map RE.lit)

def raltL : List RE → RE
  | [] => RE.eps
  | [r] => r
  | r :: rs => RE.alt r (raltL rs)

/-- `(?:w1|w2|...)` over literal words. -/
def rwords (ws : List String) : RE := raltL (ws.map rstr)

def ropt (r : RE) : RE := RE.alt r RE.eps
def rplus (r : RE) : RE := RE.seq r (RE.star r)
def rplusL (r : RE) : RE := RE.seq r (RE.starL r)
/-- `\s*` -/
def rsp0 : RE := RE.star RE.space
/-- `\s+` -/
def rsp1 : RE := rplus RE.space

/-! ## Contextual patterns for short language names
(`_check_programming_language_context`)

Each definition mirrors one regex literal of the source, quoted in its doc
comment. -/

/-- `\br\s+(?:programming|language|script|statistical|data|analysis)` -/
def rPat1 : RE := rcat [RE.wb, RE.lit 'r', rsp1,
  rwords ["programming", "language", "script", "statistical", "data", "analysis"]]

/-- `(?:programming|language|statistical|data)\s+(?:with\s+)?r\b` -/
def rPat2 : RE := rcat [rwords ["programming", "language", "statistical", "data"], rsp1,
  ropt (rcat [rstr "with", rsp1]), RE.lit 'r', RE.wb]

/-- `\br\s+(?:studio|packages|cran)` -/
def rPat3 : RE := rcat [RE.wb, RE.lit 'r', rsp1, rwords ["studio", "packages", "cran"]]

/-- `(?:ggplot|dplyr|tidyverse|shiny).*r\b` -/
def rPat4 : RE := rcat [rwords ["ggplot", "dplyr", "tidyverse", "shiny"],
  RE.star RE.anyc, RE.lit 'r', RE.wb]

/-- `\br\b.*(?:statistical|analytics|visualization)` -/
def rPat5 : RE := rcat [RE.wb, RE.lit 'r', RE.wb, RE.star RE.anyc,
  rwords ["statistical", "analytics", "visualization"]]

/-- `(?:experience|proficient|skilled)\s+(?:in\s+)?r\b` -/
def rPat6 : RE := rcat [rwords ["experience", "proficient", "skilled"], rsp1,
  ropt (rcat [rstr "in", rsp1]), RE.lit 'r', RE.wb]

/-- `\br\s+(?:/|and|or)\s+python` -/
def rPat7 : RE := rcat [RE.wb, RE.lit 'r', rsp1, rwords ["/", "and", "or"], rsp1,
  rstr "python"]

/-- `python\s+(?:/|and|or)\s+r\b` -/
def rPat8 : RE := rcat [rstr "python", rsp1, rwords ["/", "and", "or"], rsp1,
  RE.lit 'r', RE.wb]

/-- `\bc\s+(?:programming|language)` -/
def cPat1 : RE := rcat [RE.wb, RE.lit 'c', rsp1, rwords ["programming", "language"]]

/-- `(?:programming|language)\s+(?:in\s+)?c\b` -/
def cPat2 : RE := rcat [rwords ["programming", "language"], rsp1,
  ropt (rcat [rstr "in", rsp1]), RE.lit 'c', RE.wb]

/-- `\bc\s+(?:/|and|or)\s+c\+\+` -/
def cPat3 : RE := rcat [RE.wb, RE.lit 'c', rsp1, rwords ["/", "and", "or"], rsp1,
  rstr "c++"]

/-- `c\+\+\s+(?:/|and|or)\s+c\b` -/
def cPat4 : RE := rcat [rstr "c++", rsp1, rwords ["/", "and", "or"], rsp1,
  RE.lit 'c', RE.wb]

/-- `(?:experience|proficient|skilled)\s+(?:in\s+)?c\b` -/
def cPat5 : RE := rcat [rwords ["experience", "proficient", "skilled"], rsp1,
  ropt (rcat [rstr "in", rsp1]), RE.lit 'c', RE.wb]

/-- `\bc\s+(?:development|coding)` -/
def cPat6 : RE := rcat [RE.wb, RE.lit 'c', rsp1, rwords ["development", "coding"]]

/-- `(?:embedded|system)\s+(?:programming\s+)?(?:in\s+)?c\b` -/
def cPat7 : RE := rcat [rwords ["embedded", "system"], rsp1,
  ropt (rcat [rstr "programming", rsp1]), ropt (rcat [rstr "in", rsp1]),
  RE.lit 'c', RE.wb]

/-- `\bgo\s+(?:programming|language|lang)` -/
def goPat1 : RE := rcat [RE.wb, rstr "go", rsp1, rwords ["programming", "language", "lang"]]

/-- `(?:programming|language)\s+(?:in\s+)?go\b` -/
def goPat2 : RE := rcat [rwords ["programming", "language"], rsp1,
  ropt (rcat [rstr "in", rsp1]), rstr "go", RE.wb]

/-- `golang\b` -/
def goPat3 : RE := rcat [rstr "golang", RE.wb]

/-- `\bgo\s+(?:development|coding)` -/
def goPat4 : RE := rcat [RE.wb, rstr "go", rsp1, rwords ["development", "coding"]]

/-- `(?:experience|proficient|skilled)\s+(?:in\s+)?go\b` -/
def goPat5 : RE := rcat [rwords ["experience", "proficient", "skilled"], rsp1,
  ropt (rcat [rstr "in", rsp1]), rstr "go", RE.wb]

/-- `\bgo\s+(?:/|and|or)\s+(?:python|java|rust)` -/
def goPat6 : RE := rcat [RE.wb, rstr "go", rsp1, rwords ["/", "and", "or"], rsp1,
  rwords ["python", "java", "rust"]]

/-- `(?:python|java|rust)\s+(?:/|and|or)\s+go\b` -/
def goPat7 : RE := rcat [rwords ["python", "java", "rust"], rsp1,
  rwords ["/", "and", "or"], rsp1, rstr "go", RE.wb]

/-- `google\s+go\b` -/
def goPat8 : RE := rcat [rstr "google", rsp1, rstr "go", RE.wb]

/-- The `language_patterns` table of `_check_programming_language_context`. -/
def language_patterns (language : String) : List RE :=
  if language = "r" then [rPat1, rPat2, rPat3, rPat4, rPat5, rPat6, rPat7, rPat8]
  else if language = "c" then [cPat1, cPat2, cPat3, cPat4, cPat5, cPat6, cPat7]
  else if language = "go" then [goPat1, goPat2, goPat3, goPat4, goPat5, goPat6, goPat7, goPat8]
  else []

/-- `_check_programming_language_context`: true iff some contextual pattern of
the language matches somewhere in the text. -/
def check_programming_language_context (language text : String) : Bool :=
  (language_patterns language).any (fun p => hasMatch p text.data)

/-- `_is_skill_mentioned`: three-tier matching policy.  Short high-collision
tokens `r`/`c`/`go` use the contextual patterns; skills containing a space or
a period use substring containment; all other skills use word-boundary
search (`\b` + escaped skill + `\b`). -/
def is_skill_mentioned (skill text : String) : Bool :=
  let skill_lower := lowerStr skill
  let text_lower := lowerStr text
  if skill_lower = "r" ∨ skill_lower = "c" ∨ skill_lower = "go" then
    check_programming_language_context skill_lower text_lower
  else if skill_lower.data.contains ' ' || skill_lower.data.contains '.' then
    containsSub skill_lower.data text_lower.data
  else
    hasMatch (rcat [RE.wb, rstr skill_lower, RE.wb]) text_lower.data

/-! ## Static catalogs (`IntelligentSelectorLite.__init__`) -/

def tech_skills : List String := [
  "python", "javascript", "typescript", "java", "kotlin", "scala", "swift",
  "c++", "c#", "objective-c", "go", "rust", "php", "ruby", "r", "c",
  "matlab", "sql", "html", "css", "xml", "json", "yaml",
  "react", "angular", "vue.js", "vue", "node.js", "express.js", "express",
  "django", "flask", "fastapi", "spring boot", "spring", "laravel", "rails",
  "tensorflow", "pytorch", "scikit-learn", "pandas", "numpy", "matplotlib",
  "seaborn", "plotly", "d3.js", "jquery", "bootstrap", "tailwind",
  "mysql", "postgresql", "mongodb", "redis", "elasticsearch", "cassandra",
  "dynamodb", "sqlite", "oracle", "sql server", "mariadb",
  "aws", "azure", "gcp", "google cloud", "docker", "kubernetes", "jenkins",
  "github actions", "gitlab ci", "terraform", "ansible", "nginx", "apache",
  "linux", "ubuntu", "centos", "debian", "windows server",
  "git", "github", "gitlab", "bitbucket", "jira", "confluence", "slack",
  "microsoft teams", "visual studio", "vscode", "intellij", "eclipse",
  "jupyter", "postman", "insomnia", "figma", "sketch", "adobe"]

def business_concepts : List String := [
  "leadership", "management", "teamwork", "collaboration", "communication",
  "problem solving", "project management", "agile", "scrum", "kanban",
  "stakeholder management", "strategy", "analysis", "research",
  "documentation", "presentation", "mentoring", "coaching"]

def teaching_skills : List String := [
  "curriculum development", "lesson planning", "classroom management",
  "assessment", "differentiated instruction", "educational technology",
  "student engagement", "learning objectives", "pedagogy",
  "educational psychology", "special needs", "inclusive education",
  "parent communication", "professional development"]

/-- The insertion-ordered `job_categories` dict. -/
def job_categories : List (String × List String) := [
  ("teaching", ["teacher", "instructor", "professor", "educator", "tutor", "lecturer",
                "teaching", "education", "classroom", "curriculum", "student", "school"]),
  ("healthcare", ["nurse", "doctor", "physician", "medical", "clinical", "patient", "hospital"]),
  ("technology", ["developer", "engineer", "programmer", "software", "technical", "coding"]),
  ("business", ["manager", "analyst", "consultant", "sales", "marketing", "finance"]),
  ("research", ["research", "scientist", "analyst", "data", "study", "investigation"])]

/-! ## Auxiliary extraction (`_extract_*`) -/

/-- `(\d+)\+?\s*years?\s*(?:of\s*)?experience` -/
def expPat1 : RE := rcat [RE.grp (rplus RE.digit), ropt (RE.lit '+'), rsp0,
  rstr "year", ropt (RE.lit 's'), rsp0, ropt (rcat [rstr "of", rsp0]), rstr "experience"]

/-- `(\d+)\+?\s*years?\s*in` -/
def expPat2 : RE := rcat [RE.grp (rplus RE.digit), ropt (RE.lit '+'), rsp0,
  rstr "year", ropt (RE.lit 's'), rsp0, rstr "in"]

/-- `minimum\s*(?:of\s*)?(\d+)\s*years?` -/
def expPat3 : RE := rcat [rstr "minimum", rsp0, ropt (rcat [rstr "of", rsp0]),
  RE.grp (rplus RE.digit), rsp0, rstr "year", ropt (RE.lit 's')]

/-- `at\s*least\s*(\d+)\s*years?` -/
def expPat4 : RE := rcat [rstr "at", rsp0, rstr "least", rsp0,
  RE.grp (rplus RE.digit), rsp0, rstr "year", ropt (RE.lit 's')]

/-- The priority-ordered pattern list of `_extract_experience_years`. -/
def experience_patterns : List RE := [expPat1, expPat2, expPat3, expPat4]

/-- `int(...)` on a string of decimal digits. -/
def digitsToNat (ds : List Char) : Nat :=
  ds.foldl (fun n c => n * 10 + (c.toNat - '0'.toNat)) 0

/-- For each pattern in priority order, `re.findall(...)`; if there are
matches, return the integer captured by the first (leftmost) match. -/
def firstExpCapture : List RE → List Char → Int
  | [], _ => 0
  | r :: rs, lp =>
    match searchFrom r none lp with
    | some (_, _, cap) => (digitsToNat (cap.getD []) : Int)
    | none => firstExpCapture rs lp

/-- `_extract_experience_years` (the source lowercases the text itself). -/
def extract_experience_years (text : String) : Int :=
  firstExpCapture experience_patterns (canon text.data)

/-- `_extract_job_title`: the stripped first line of the text, when its
length is under 100; empty otherwise.  (`text.split('\n')` is never empty.) -/
def extract_job_title (text : String) : String :=
  match splitOnChar '\n' text.data with
  | [] => ""
  | first_line :: _ =>
    let f := stripChars first_line
    if f.length < 100 then ⟨f⟩ else ""

/-- `[•·-]\s*(.+?)(?=\n|$)` (under `re.MULTILINE`, `$` matches at the end of
the string or before a newline). -/
def bulletPat1 : RE := rcat [RE.cset ['•', '·', '-'], rsp0,
  RE.grp (rplusL RE.anyc), RE.look (RE.alt (RE.lit '\n') RE.eol)]

/-- `\d+\.\s*(.+?)(?=\n|$)` -/
def bulletPat2 : RE := rcat [rplus RE.digit, RE.lit '.', rsp0,
  RE.grp (rplusL RE.anyc), RE.look (RE.alt (RE.lit '\n') RE.eol)]

/-- `^\s*[\*-]\s*(.+?)(?=\n|$)` (multiline `^`). -/
def bulletPat3 : RE := rcat [RE.bolML, rsp0, RE.cset ['*', '-'], rsp0,
  RE.grp (rplusL RE.anyc), RE.look (RE.alt (RE.lit '\n') RE.eol)]

/-- `_extract_responsibilities`: findall each bullet pattern over the raw
text, concatenate the captured fragments in order, keep the first 10. -/
def extract_responsibilities (text : String) : List String :=
  ((findAll bulletPat1 text.data ++ findAll bulletPat2 text.data ++
    findAll bulletPat3 text.data).map (fun l => (⟨l⟩ : String))).take 10

/-! ## Job Category Classifier (`_detect_job_category`) -/

/-- Count keyword hits per category and return the first category attaining
the maximal count (Python's `max` over the insertion-ordered dict items keeps
the first maximal entry).  The `'business'` fallback is only reached when
the table is empty. -/
def detect_job_category (job_text : String) : String :=
  let category_scores := job_categories.map (fun ck =>
    (ck.1, (ck.2.filter (fun keyword => containsSub keyword.data job_text.data)).length))
  match category_scores with
  | [] => "business"
  | x :: xs => (xs.foldl (fun best y => if y.2 > best.2 then y else best) x).1

/-! ## Skill and concept extraction -/

def replaceSpaceBy (b : Char) (s : List Char) : List Char :=
  s.map (fun c => if c = ' ' then b else c)

def removeSpaces (s : List Char) : List Char := s.filter (fun c => c ≠ ' ')

/-- `_extract_skills_by_category` (called on the lowercased posting text):
catalog skills via the context-aware matcher, minus an infrastructure
denylist for teaching jobs; plus teaching skill phrases (with punctuation
variants) for teaching jobs; plus business-concept substring hits.
`list(set(...))` is modelled by `dedup` — the Python set order is
unspecified, and only membership is relied upon downstream. -/
def extract_skills_by_category (text : String) (job_category : String) : List String :=
  let found1 := tech_skills.filter (fun skill =>
    is_skill_mentioned skill text &&
    !(job_category = "teaching" &&
      (skill = "docker" || skill = "kubernetes" || skill = "aws" || skill = "terraform")))
  let found2 :=
    if job_category = "teaching" then
      teaching_skills.filter (fun skill =>
        containsSub skill.data text.data ||
        containsSub (removeSpaces skill.data) text.data ||
        containsSub (replaceSpaceBy '-' skill.data) text.data)
    else []
  let found3 := business_concepts.filter (fun concept =>
    containsSub (canon concept.data) text.data)
  (found1 ++ found2 ++ found3).dedup

/-- The teaching-specific concept list of `_extract_basic_concepts`. -/
def teaching_concepts : List String := ["education", "learning", "students",
  "curriculum", "assessment", "classroom", "instruction", "pedagogy", "academic"]

/-- `_extract_basic_concepts` (no-NLP fallback, called on lowercased text). -/
def extract_basic_concepts (text : String) (job_category : String) : List String :=
  let c1 :=
    if job_category = "teaching" then
      teaching_concepts.filter (fun concept => containsSub concept.data text.data)
    else []
  let c2 := business_concepts.filter (fun concept => containsSub concept.data text.data)
  ((c1 ++ c2).dedup).take 10

/-! ## The NLP backend abstraction and the Job Description Analyzer -/

/-- A named entity of a parsed document (`ent.text`, `ent.label_`). -/
structure SpacyEnt where
  text : String
  label : String
deriving DecidableEq

/-- The part of a spaCy `Doc` the analyzer reads: entities, noun chunks
(those of 2–4 words are kept), and the document text. -/
structure SpacyDoc where
  ents : List SpacyEnt
  noun_chunks : List String
  text : String
deriving DecidableEq

/-- `_extract_key_concepts`: entity texts with the four relevant labels,
2–4-word noun chunks, and business-concept substring hits, deduplicated and
capped at 20 (`list(set(...))[:20]`; set order unspecified). -/
def extract_key_concepts (doc : SpacyDoc) : List String :=
  let c1 := (doc.ents.filter (fun e =>
      e.label = "ORG" || e.label = "PRODUCT" || e.label = "WORK_OF_ART" ||
      e.label = "LANGUAGE")).map (fun e => lowerStr e.text)
  let c2 := (doc.noun_chunks.filter (fun chunk =>
      decide (2 ≤ (wsSplit chunk.data).length) &&
      decide ((wsSplit chunk.data).length ≤ 4))).map lowerStr
  let c3 := business_concepts.filter (fun concept =>
    containsSub (canon concept.data) (canon doc.text.data))
  ((c1 ++ c2 ++ c3).dedup).take 20

/-- `_extract_company_name`: the first ORG entity's text, else empty. -/
def extract_company_name (doc : SpacyDoc) : String :=
  match doc.ents.find? (fun e => e.label = "ORG") with
  | some e => e.text
  | none => ""

/-- `JobAnalysis` (experience years as `Int`, mirroring Python `int`). -/
structure JobAnalysis where
  required_skills : List String
  key_concepts : List String
  required_experience_years : Int
  company_name : String
  job_title : String
  key_responsibilities : List String
deriving DecidableEq

/-- `_basic_job_analysis` (fallback when initialization itself fails). -/
def basic_job_analysis (job_description : String) : JobAnalysis :=
  let text_lower := lowerStr job_description
  { required_skills := tech_skills.filter (fun skill => is_skill_mentioned skill text_lower)
    key_concepts := business_concepts.filter (fun concept =>
      containsSub (canon concept.data) text_lower.data)
    required_experience_years := extract_experience_years job_description
    company_name := ""
    job_title := ""
    key_responsibilities := [] }

/-- `initialize()` returns `True` on every path of the source (load failures
are caught and merely leave the nlp backend unset), so the
`if not self.initialize()` guard of `analyze_job_description` never fires. -/
def selector_init_ok : Bool := true

/-- `analyze_job_description`.  The optional NLP backend is a function that
parses the document; its possible runtime failure is modelled by `Except`.
The source calls `self.nlp(job_description)` with no surrounding handler, so
a backend failure propagates out of the analysis (`Except.error`); when the
backend is absent the simplified extraction runs instead. -/
def analyze_job_description (nlp : Option (String → Except String SpacyDoc))
    (job_description : String) : Except String JobAnalysis :=
  if !selector_init_ok then Except.ok (basic_job_analysis job_description)
  else
    let job_category := detect_job_category (lowerStr job_description)
    match nlp with
    | some f =>
      match f job_description with
      | Except.error e => Except.error e
      | Except.ok doc =>
        Except.ok {
          required_skills := extract_skills_by_category (lowerStr job_description) job_category
          key_concepts := extract_key_concepts doc
          required_experience_years := extract_experience_years job_description
          company_name := extract_company_name doc
          job_title := extract_job_title job_description
          key_responsibilities := extract_responsibilities job_description }
    | none =>
      Except.ok {
        required_skills := extract_skills_by_category (lowerStr job_description) job_category
        key_concepts := extract_basic_concepts (lowerStr job_description) job_category
        required_experience_years := extract_experience_years job_description
        company_name := ""
        job_title := ""
        key_responsibilities := [] }

/-! ## Asset Scorer & Ranker -/

/-- `' '.join(strings)` as characters. -/
def joinSpace : List String → List Char
  | [] => []
  | [s] => s.data
  | s :: rest => s.data ++ ' ' :: joinSpace rest

/-- `f"{title} {description}".lower()` — the combined asset text. -/
def combinedText (title description : String) : String :=
  ⟨canon (title.data ++ ' ' :: description.data)⟩

/-- `f"{' '.join(required_skills)} {' '.join(key_concepts)}"` — the job text
against which the similarity term is computed. -/
def jobTextChars (J : JobAnalysis) : List Char :=
  joinSpace J.required_skills ++ ' ' :: joinSpace J.key_concepts

/-- The raw (pre-normalization) score accumulated by
`_calculate_asset_score`: 2.0 per required skill mentioned in the combined
text (context-aware matcher), 1.0 per key concept contained as a lowercase
substring, plus 3.0 times the text similarity between the combined text and
the job text. -/
def rawScore (title description : String) (J : JobAnalysis) : ℚ :=
  2 * ((J.required_skills.filter (fun skill =>
        is_skill_mentioned skill (combinedText title description))).length : ℚ)
  + ((J.key_concepts.filter (fun concept =>
        containsSub (canon concept.data) (combinedText title description).data)).length : ℚ)
  + 3 * calculate_text_similarity (combinedText title description) ⟨jobTextChars J⟩

/-- `max_possible_score = len(required_skills) * 2.0 + len(key_concepts) * 1.0 + 3.0`. -/
def maxPossibleScore (J : JobAnalysis) : ℚ :=
  (J.required_skills.length : ℚ) * 2 + (J.key_concepts.length : ℚ) * 1 + 3

/-- `_calculate_asset_score`: normalize the raw score to a 0–10 scale and cap
at 10. -/
def calculate_asset_score (title description : String) (J : JobAnalysis) : ℚ :=
  let score := rawScore title description J
  let max_possible_score := maxPossibleScore J
  let normalized_score :=
    if 0 < max_possible_score then score / max_possible_score * 10 else 0
  min normalized_score 10

/-- `ProfileAsset`. -/
structure ProfileAsset where
  title : String
  description : String
  score : ℚ
  matching_skills : List String
  matching_concepts : List String
deriving DecidableEq

/-- `_find_matching_skills`. -/
def find_matching_skills (text : String) (required_skills : List String) : List String :=
  required_skills.filter (fun skill => is_skill_mentioned skill text)

/-- `_find_matching_concepts`. -/
def find_matching_concepts (text : String) (key_concepts : List String) : List String :=
  key_concepts.filter (fun concept => containsSub (canon concept.data) (canon text.data))

/-- One entry of a profile's `projects`/`experiences` list: either a dict
(with string-valued fields; `rendered` is its `str(...)` rendering, used as
the default description) or a non-dict entry rendered by `str(...)`. -/
inductive PEntry where
  | pdict (fields : List (String × String)) (rendered : String)
  | pitem (rendered : String)

/-- A profile field value: a single string, a list of entries, or a value of
some other type (which the ranker ignores). -/
inductive FieldVal where
  | fstr (s : String)
  | flist (entries : List PEntry)
  | fother

/-- The slice of `user_profile` the ranker reads; `none` models an absent
key. -/
structure UserProfile where
  projects : Option FieldVal
  experiences : Option FieldVal

/-- `d.get(key, dflt)`. -/
def getField (fields : List (String × String)) (key : String) (dflt : String) : String :=
  (List.lookup key fields).getD dflt

/-- Normalization of the `projects` field into `(title, description, type)`
records. -/
def projectAssets : FieldVal → List (String × String × String)
  | .fstr s => [("Project", s, "project")]
  | .flist entries => entries.map (fun e =>
      match e with
      | .pdict fields rendered =>
        (getField fields "title" (getField fields "name" "Project"),
         getField fields "description" rendered, "project")
      | .pitem rendered => ("Project", rendered, "project"))
  | .fother => []

/-- Normalization of the `experiences` field. -/
def experienceAssets : FieldVal → List (String × String × String)
  | .fstr s => [("Experience", s, "experience")]
  | .flist entries => entries.map (fun e =>
      match e with
      | .pdict fields rendered =>
        (getField fields "position" (getField fields "title" (getField fields "role" "Experience")),
         getField fields "description" rendered, "experience")
      | .pitem rendered => ("Experience", rendered, "experience"))
  | .fother => []

/-- `all_assets`: normalized projects followed by normalized experiences. -/
def allAssets (profile : UserProfile) : List (String × String × String) :=
  (match profile.projects with | some v => projectAssets v | none => []) ++
  (match profile.experiences with | some v => experienceAssets v | none => [])

/-- The scored (not yet sorted) asset list built by `rank_profile_assets`. -/
def scoredAssets (job_analysis : JobAnalysis) (profile : UserProfile) : List ProfileAsset :=
  (allAssets profile).map (fun a =>
    { title := a.1
      description := a.2.1
      score := calculate_asset_score a.1 a.2.1 job_analysis
      matching_skills := find_matching_skills a.2.1 job_analysis.required_skills
      matching_concepts := find_matching_concepts a.2.1 job_analysis.key_concepts })

/-- Stable insertion for descending-by-score order: a later element is
placed after every earlier element of greater-or-equal score. -/
def insertRanked : List ProfileAsset → ProfileAsset → List ProfileAsset
  | [], a => [a]
  | b :: rest, a => if a.score ≤ b.score then b :: insertRanked rest a else a :: b :: rest

/-- `ranked_assets.sort(key=lambda x: x.score, reverse=True)`: Python's sort
is stable, and the stable descending sort of a list is unique, so this
insertion sort computes exactly the sorted list the source produces. -/
def sortByScoreDesc (l : List ProfileAsset) : List ProfileAsset :=
  l.foldl insertRanked []

/-- `rank_profile_assets`. -/
def rank_profile_assets (job_analysis : JobAnalysis) (profile : UserProfile) :
    List ProfileAsset :=
  sortByScoreDesc (scoredAssets job_analysis profile)

/-- `select_best_assets` (`max_assets` defaults to 5 at the call sites). -/
def select_best_assets (ranked_assets : List ProfileAsset) (max_assets : Nat) :
    List ProfileAsset :=
  ranked_assets.take max_assets

/-! ## Helper lemmas for the similarity estimator -/

theorem simSets_self (w : Finset (List Char)) (h : w ≠ ∅) : simSets w w = 1 := by
  unfold simSets
  rw [Finset.inter_self, Finset.union_self, if_neg (by simp [h]),
    if_pos (Finset.card_pos.mpr (Finset.nonempty_iff_ne_empty.mpr h))]
  exact div_self (Nat.cast_ne_zero.mpr
    (Finset.card_ne_zero.mpr (Finset.nonempty_iff_ne_empty.mpr h)))

theorem simSets_empty_right (w : Finset (List Char)) : simSets w ∅ = 0 := by
  unfold simSets
  simp

/-! ## Claim theorems -/

/-- Claim C10: `calculate_text_similarity` is symmetric in its two
arguments. -/
theorem C10_similarity_symmetric (a b : String) :
    calculate_text_similarity a b = calculate_text_similarity b a :=
  simSets_comm _ _

/-- Claim C5, counterexample: `"!"` is a non-empty string, yet
`calculate_text_similarity "!" "!"` is `0`, not `1` — a non-empty string with
no word characters has an empty token set, so the similarity guard returns
`0.0` even on identical inputs. -/
theorem C5_similarity_self_counterexample :
    ("!" : String) ≠ "" ∧ calculate_text_similarity "!" "!" = 0 ∧
    ¬ calculate_text_similarity "!" "!" = 1 := by
  refine ⟨by decide, by decide, by decide⟩

/-- Claim C5 (amended): for every string whose token set is non-empty
(i.e. containing at least one word character), the similarity with itself is
`1.0`; and for every string, the similarity with the empty string is `0.0`. -/
theorem C5_similarity_amended (a : String) :
    (tokenSet (canon a.data) ≠ ∅ → calculate_text_similarity a a = 1) ∧
    calculate_text_similarity a "" = 0 := by
  constructor
  · intro h
    exact simSets_self _ h
  · show simSets _ (tokenSet (canon ("" : String).data)) = 0
    exact simSets_empty_right _

/-- Claim C5, witness for the amended claim at a concrete input. -/
theorem C5_similarity_amended_witness :
    calculate_text_similarity "ab" "ab" = 1 ∧ calculate_text_similarity "ab" "" = 0 :=
  ⟨(C5_similarity_amended "ab").1 (by decide), (C5_similarity_amended "ab").2⟩

/-- Claim C3: on a posting in which every category's keyword count is zero
(for instance the empty posting), the classifier returns `"teaching"` — the
first entry of the category table — because Python's `max` keeps the first
maximal item and the `'business'` default is only reachable from an empty
table.  This contradicts the claimed (and commented) `'business'` default. -/
theorem C3_all_zero_counts_give_teaching :
    detect_job_category "" = "teaching" ∧ ¬ detect_job_category "" = "business" := by
  refine ⟨by decide, by decide⟩

/-- Definition following the spec's words (§4.3 step 6) for comparison with
`extract_job_title`: "the first non-empty line of the raw text if its length
is under 100 characters, else empty". -/
def job_title_per_spec (text : String) : String :=
  match (splitOnChar '\n' text.data).filter (fun l => !l.isEmpty) with
  | [] => ""
  | l :: _ => if l.length < 100 then ⟨l⟩ else ""

/-- Claim C8, counterexample: on a text whose first line is empty, the code
returns `""` (it always takes line one), while the claimed "first non-empty
line" rule yields `"Senior Developer"`. -/
theorem C8_job_title_counterexample :
    extract_job_title "\nSenior Developer" = "" ∧
    job_title_per_spec "\nSenior Developer" = "Senior Developer" := by
  refine ⟨by decide, by decide⟩

theorem splitOnChar_head (sep : Char) (s : List Char) :
    ∃ ls, splitOnChar sep s = s.takeWhile (fun c => c != sep) :: ls := by
  induction s with
  | nil => exact ⟨[], rfl⟩
  | cons c cs ih =>
    obtain ⟨ls, hls⟩ := ih
    by_cases hc : c = sep
    · refine ⟨cs.takeWhile (fun c => c != sep) :: ls, ?_⟩
      simp [splitOnChar, hls, hc]
    · refine ⟨ls, ?_⟩
      simp [splitOnChar, hls, hc, List.takeWhile_cons, bne_iff_ne]

/-- Claim C8 (amended): the extracted job title is the *stripped first line*
of the raw text (the segment before the first newline, whitespace-stripped)
whenever that stripped line's length is under 100 characters, and the empty
string otherwise; the first line is used even when it is blank — not the
first non-empty line. -/
theorem C8_job_title_amended (text : String) :
    extract_job_title text =
      (if (stripChars (text.data.takeWhile (fun c => c != '\n'))).length < 100 then
        (⟨stripChars (text.data.takeWhile (fun c => c != '\n'))⟩ : String)
      else "") := by
  obtain ⟨ls, hls⟩ := splitOnChar_head '\n' text.data
  unfold extract_job_title
  rw [hls]

/-- Claim C2, counterexample: an exception raised by a *loaded* NLP backend
while parsing the document is not caught — `analyze_job_description`
propagates it instead of falling back, contradicting "never raises across
the public boundary". -/
theorem C2_nlp_error_propagates :
    analyze_job_description (some (fun _ => Except.error "nlp failure")) "Software Engineer"
      = Except.error "nlp failure" := rfl

/-- Claim C2 (amended): exceptions are caught only while *loading* the NLP
backend — initialization always reports success and merely leaves the
backend unset — and with no backend the analyzer always returns a
`JobAnalysis` built by the simplified extraction (catalog skills and concept
list, empty title/company/responsibilities); an exception thrown by a loaded
backend during analysis, however, propagates to the caller. -/
theorem C2_no_nlp_fallback_total (jd : String) :
    ∃ A : JobAnalysis, analyze_job_description none jd = Except.ok A ∧
      A.company_name = "" ∧ A.job_title = "" ∧ A.key_responsibilities = [] ∧
      A.required_skills =
        extract_skills_by_category (lowerStr jd) (detect_job_category (lowerStr jd)) ∧
      A.key_concepts =
        extract_basic_concepts (lowerStr jd) (detect_job_category (lowerStr jd)) ∧
      A.required_experience_years = extract_experience_years jd :=
  ⟨_, rfl, rfl, rfl, rfl, rfl, rfl, rfl⟩

/-! ## C9: experience-years extraction -/

/-- The integer captured by the leftmost match of `r`, `0` when `r` does not
match (used to state the priority-order property). -/
def expCapValue (r : RE) (lp : List Char) : Int :=
  match searchFrom r none lp with
  | some (_, _, cap) => (digitsToNat (cap.getD []) : Int)
  | none => 0

theorem firstExpCapture_nonneg (rs : List RE) (lp : List Char) :
    0 ≤ firstExpCapture rs lp := by
  induction rs with
  | nil => exact le_refl 0
  | cons r rest ih =>
    unfold firstExpCapture
    cases h : searchFrom r none lp with
    | none => exact ih
    | some v => exact Int.natCast_nonneg _

/-- Claim C9: `required_experience_years` of every successful analysis equals
`extract_experience_years` of the posting; that value is a non-negative
integer; it is the first captured integer of the first pattern — in the
fixed priority order "N(+) years of experience", "N years in",
"minimum of N years", "at least N years" — that matches anywhere in the
lowercased posting; and it is exactly `0` when no pattern matches. -/
theorem C9_experience_years (nlp : Option (String → Except String SpacyDoc))
    (p : String) (A : JobAnalysis)
    (h : analyze_job_description nlp p = Except.ok A) :
    A.required_experience_years = extract_experience_years p ∧
    0 ≤ extract_experience_years p ∧
    extract_experience_years p =
      (if (searchFrom expPat1 none (canon p.data)).isSome then expCapValue expPat1 (canon p.data)
       else if (searchFrom expPat2 none (canon p.data)).isSome then expCapValue expPat2 (canon p.data)
       else if (searchFrom expPat3 none (canon p.data)).isSome then expCapValue expPat3 (canon p.data)
       else if (searchFrom expPat4 none (canon p.data)).isSome then expCapValue expPat4 (canon p.data)
       else 0) ∧
    (((searchFrom expPat1 none (canon p.data)) = none ∧
      (searchFrom expPat2 none (canon p.data)) = none ∧
      (searchFrom expPat3 none (canon p.data)) = none ∧
      (searchFrom expPat4 none (canon p.data)) = none) →
      extract_experience_years p = 0) := by
  have hstruct : extract_experience_years p =
      (if (searchFrom expPat1 none (canon p.data)).isSome then expCapValue expPat1 (canon p.data)
       else if (searchFrom expPat2 none (canon p.data)).isSome then expCapValue expPat2 (canon p.data)
       else if (searchFrom expPat3 none (canon p.data)).isSome then expCapValue expPat3 (canon p.data)
       else if (searchFrom expPat4 none (canon p.data)).isSome then expCapValue expPat4 (canon p.data)
       else 0) := by
    unfold extract_experience_years experience_patterns expCapValue
    cases h1 : searchFrom expPat1 none (canon p.data) with
    | some v => obtain ⟨a, b, c⟩ := v; simp [firstExpCapture, h1]
    | none =>
      cases h2 : searchFrom expPat2 none (canon p.data) with
      | some v => obtain ⟨a, b, c⟩ := v; simp [firstExpCapture, h1, h2]
      | none =>
        cases h3 : searchFrom expPat3 none (canon p.data) with
        | some v => obtain ⟨a, b, c⟩ := v; simp [firstExpCapture, h1, h2, h3]
        | none =>
          cases h4 : searchFrom expPat4 none (canon p.data) with
          | some v => obtain ⟨a, b, c⟩ := v; simp [firstExpCapture, h1, h2, h3, h4]
          | none => simp [firstExpCapture, h1, h2, h3, h4]
  refine ⟨?_, firstExpCapture_nonneg _ _, hstruct, ?_⟩
  · cases nlp with
    | none =>
      simp only [analyze_job_description, selector_init_ok, Bool.not_true,
        Bool.false_eq_true, if_false, Except.ok.injEq] at h
      rw [← h]
    | some f =>
      cases hf : f p with
      | error e =>
        simp [analyze_job_description, selector_init_ok, hf] at h
      | ok doc =>
        simp only [analyze_job_description, selector_init_ok, Bool.not_true,
          Bool.false_eq_true, if_false, hf, Except.ok.injEq] at h
        rw [← h]
  · rintro ⟨h1, h2, h3, h4⟩
    rw [hstruct, h1, h2, h3, h4]
    simp

/-- Claim C9, witness: on the posting "5 years of experience" the analysis
succeeds with `required_experience_years = 5`, and the theorem's first
conjunct applies. -/
theorem C9_experience_years_witness :
    analyze_job_description none "5 years of experience" =
      Except.ok ⟨[], [], 5, "", "", []⟩ ∧
    (⟨[], [], 5, "", "", []⟩ : JobAnalysis).required_experience_years =
      extract_experience_years "5 years of experience" :=
  ⟨rfl, (C9_experience_years none "5 years of experience" _ rfl).1⟩

/-! ## C1: the asset scoring formula -/

theorem maxPossibleScore_pos (J : JobAnalysis) : 0 < maxPossibleScore J := by
  unfold maxPossibleScore
  have h1 : (0 : ℚ) ≤ (J.required_skills.length : ℚ) := Nat.cast_nonneg _
  have h2 : (0 : ℚ) ≤ (J.key_concepts.length : ℚ) := Nat.cast_nonneg _
  nlinarith

theorem rawScore_nonneg (title description : String) (J : JobAnalysis) :
    0 ≤ rawScore title description J := by
  unfold rawScore
  have h1 : (0 : ℚ) ≤ ((J.required_skills.filter (fun skill =>
      is_skill_mentioned skill (combinedText title description))).length : ℚ) :=
    Nat.cast_nonneg _
  have h2 : (0 : ℚ) ≤ ((J.key_concepts.filter (fun concept =>
      containsSub (canon concept.data) (combinedText title description).data)).length : ℚ) :=
    Nat.cast_nonneg _
  have h3 : 0 ≤ calculate_text_similarity (combinedText title description) ⟨jobTextChars J⟩ :=
    calculate_text_similarity_nonneg _ _
  nlinarith

/-- Claim C1: for every JobAnalysis and asset, the computed score equals
`clamp(raw / max_possible * 10, 0, 10)` where `raw` is the weighted sum of
skill mentions (×2), concept substring hits (×1) and text similarity (×3),
and `max_possible = 2·|required_skills| + 1·|key_concepts| + 3`; the
claim's "score is 0.0 if max_possible is 0" clause holds vacuously, since
`max_possible` is always positive (at least 3); and every score lies in
`[0, 10]`. -/
theorem C1_asset_score_formula (J : JobAnalysis) (title description : String) :
    calculate_asset_score title description J =
      max 0 (min (rawScore title description J / maxPossibleScore J * 10) 10) ∧
    0 < maxPossibleScore J ∧
    0 ≤ calculate_asset_score title description J ∧
    calculate_asset_score title description J ≤ 10 := by
  have hmax := maxPossibleScore_pos J
  have hraw := rawScore_nonneg title description J
  have hnorm : 0 ≤ rawScore title description J / maxPossibleScore J * 10 :=
    mul_nonneg (div_nonneg hraw (le_of_lt hmax)) (by norm_num)
  have hcode : calculate_asset_score title description J =
      min (rawScore title description J / maxPossibleScore J * 10) 10 := by
    show min (if 0 < maxPossibleScore J then
        rawScore title description J / maxPossibleScore J * 10 else 0) 10 = _
    rw [if_pos hmax]
  refine ⟨?_, hmax, ?_, ?_⟩
  · rw [hcode, max_eq_right (le_min hnorm (by norm_num))]
  · rw [hcode]
    exact le_min hnorm (by norm_num)
  · rw [hcode]
    exact min_le_right _ _

/-! ## C7: ranking is a stable descending sort -/

theorem mem_insertRanked (l : List ProfileAsset) (a x : ProfileAsset) :
    x ∈ insertRanked l a ↔ x ∈ l ∨ x = a := by
  induction l with
  | nil => simp [insertRanked]
  | cons b rest ih =>
    unfold insertRanked
    by_cases hab : a.score ≤ b.score
    · rw [if_pos hab]
      simp [ih]
      tauto
    · rw [if_neg hab]
      simp
      tauto

theorem pairwise_insertRanked (l : List ProfileAsset) (a : ProfileAsset)
    (h : l.Pairwise (fun x y => y.score ≤ x.score)) :
    (insertRanked l a).Pairwise (fun x y => y.score ≤ x.score) := by
  induction l with
  | nil => simp [insertRanked]
  | cons b rest ih =>
    rw [List.pairwise_cons] at h
    obtain ⟨hb, hrest⟩ := h
    unfold insertRanked
    by_cases hab : a.score ≤ b.score
    · rw [if_pos hab, List.pairwise_cons]
      refine ⟨?_, ih hrest⟩
      intro y hy
      rcases (mem_insertRanked rest a y).mp hy with hy' | rfl
      · exact hb y hy'
      · exact hab
    · rw [if_neg hab, List.pairwise_cons]
      refine ⟨?_, List.pairwise_cons.mpr ⟨hb, hrest⟩⟩
      intro y hy
      rcases List.mem_cons.mp hy with rfl | hy'
      · exact le_of_lt (lt_of_not_le hab)
      · exact le_trans (hb y hy') (le_of_lt (lt_of_not_le hab))

theorem head_max_of_pairwise (b : ProfileAsset) (rest : List ProfileAsset)
    (h : (b :: rest).Pairwise (fun x y => y.score ≤ x.score)) :
    ∀ x ∈ b :: rest, x.score ≤ b.score := by
  rw [List.pairwise_cons] at h
  intro x hx
  rcases List.mem_cons.mp hx with rfl | hx'
  · exact le_refl _
  · exact h.1 x hx'

theorem filter_insertRanked (c : ℚ) (l : List ProfileAsset) (a : ProfileAsset)
    (h : l.Pairwise (fun x y => y.score ≤ x.score)) :
    (insertRanked l a).filter (fun x => decide (x.score = c)) =
      if a.score = c then l.filter (fun x => decide (x.score = c)) ++ [a]
      else l.filter (fun x => decide (x.score = c)) := by
  induction l with
  | nil =>
    by_cases hac : a.score = c <;> simp [insertRanked, List.filter, hac]
  | cons b rest ih =>
    rw [List.pairwise_cons] at h
    obtain ⟨hb, hrest⟩ := h
    unfold insertRanked
    by_cases hab : a.score ≤ b.score
    · rw [if_pos hab]
      by_cases hac : a.score = c <;> by_cases hbc : b.score = c <;>
        simp [List.filter_cons, hac, hbc, ih hrest]
    · rw [if_neg hab]
      by_cases hac : a.score = c
      · have hnil : (b :: rest).filter (fun x => decide (x.score = c)) = [] := by
          rw [List.filter_eq_nil_iff]
          intro x hx
          have hxb := head_max_of_pairwise b rest (List.pairwise_cons.mpr ⟨hb, hrest⟩) x hx
          have : x.score < c := lt_of_le_of_lt hxb (hac ▸ lt_of_not_le hab)
          simp [ne_of_lt this]
        rw [if_pos hac, hnil]
        simp [List.filter_cons, hac, hnil]
      · rw [if_neg hac]
        simp [List.filter_cons, hac]

theorem sortFold_pairwise (input acc : List ProfileAsset)
    (h : acc.Pairwise (fun x y => y.score ≤ x.score)) :
    (input.foldl insertRanked acc).Pairwise (fun x y => y.score ≤ x.score) := by
  induction input generalizing acc with
  | nil => exact h
  | cons a rest ih => exact ih _ (pairwise_insertRanked _ _ h)

theorem sortFold_filter (c : ℚ) (input acc : List ProfileAsset)
    (h : acc.Pairwise (fun x y => y.score ≤ x.score)) :
    (input.foldl insertRanked acc).filter (fun x => decide (x.score = c)) =
      acc.filter (fun x => decide (x.score = c)) ++
        input.filter (fun x => decide (x.score = c)) := by
  induction input generalizing acc with
  | nil => simp
  | cons a rest ih =>
    show ((rest.foldl insertRanked (insertRanked acc a)).filter _) = _
    rw [ih _ (pairwise_insertRanked _ _ h), filter_insertRanked c acc a h]
    by_cases hac : a.score = c <;> simp [List.filter_cons, hac]

/-- Claim C7: the sequence returned by `rank_profile_assets` is sorted by
score non-increasing at every adjacent pair, and assets with equal scores
retain their relative input order (for every score value, filtering the
output at that score gives exactly the input's subsequence at that score). -/
theorem C7_rank_sorted_stable (J : JobAnalysis) (profile : UserProfile) :
    (rank_profile_assets J profile).Chain' (fun x y => y.score ≤ x.score) ∧
    ∀ c : ℚ, (rank_profile_assets J profile).filter (fun x => decide (x.score = c)) =
      (scoredAssets J profile).filter (fun x => decide (x.score = c)) := by
  constructor
  · exact (sortFold_pairwise (scoredAssets J profile) [] (by simp)).chain'
  · intro c
    have := sortFold_filter c (scoredAssets J profile) [] (by simp)
    simpa using this

/-! ## C6: short high-collision tokens require contextual patterns -/

/-- Claim C6: for each of the enumerated short tokens `"r"`, `"c"`, `"go"`,
the matcher reports a mention exactly when one of that token's hand-authored
contextual regular expressions matches the lowercased text — containment
alone never suffices (witnessed by a text that contains the letters but is
reported unmatched) — and analyzing the posting `"classroom teacher"`
(which contains `"classroom"` and no programming context) yields a
`required_skills` set containing neither `"r"` nor `"c"`. -/
theorem C6_short_token_contextual :
    (∀ text : String, is_skill_mentioned "r" text =
        (language_patterns "r").any (fun p => hasMatch p (lowerStr text).data)) ∧
    (∀ text : String, is_skill_mentioned "c" text =
        (language_patterns "c").any (fun p => hasMatch p (lowerStr text).data)) ∧
    (∀ text : String, is_skill_mentioned "go" text =
        (language_patterns "go").any (fun p => hasMatch p (lowerStr text).data)) ∧
    (containsSub (canon "r".data) (canon "classroom teacher".data) = true ∧
     containsSub (canon "c".data) (canon "classroom teacher".data) = true ∧
     is_skill_mentioned "r" "classroom teacher" = false ∧
     is_skill_mentioned "c" "classroom teacher" = false) ∧
    (∃ A : JobAnalysis, analyze_job_description none "classroom teacher" = Except.ok A ∧
      "r" ∉ A.required_skills ∧ "c" ∉ A.required_skills) :=
  ⟨fun _ => rfl, fun _ => rfl, fun _ => rfl,
   ⟨by decide, by decide, by decide, by decide⟩,
   ⟨_, rfl, by decide, by decide⟩⟩

/-! ## C4: monotonicity of the score under appended skill mentions -/

/-- Evaluation helper: the Jaccard value of two non-empty token sets from
their intersection and union cardinalities. -/
theorem simSets_eval (A B : Finset (List Char)) (i u : Nat)
    (hA : ¬ A = ∅) (hB : ¬ B = ∅) (hi : (A ∩ B).card = i) (hu : (A ∪ B).card = u)
    (hupos : 0 < u) :
    simSets A B = (i : ℚ) / (u : ℚ) := by
  unfold simSets
  rw [if_neg (by simp [hA, hB]), hi, hu, if_pos hupos]

/-- Evaluation helper: the score from the raw score, given that the
normalization divisor is positive (which it always is). -/
theorem calculate_asset_score_eval (title description : String) (J : JobAnalysis)
    (r : ℚ) (hr : rawScore title description J = r) :
    calculate_asset_score title description J =
      min (r / maxPossibleScore J * 10) 10 := by
  unfold calculate_asset_score
  show min (if 0 < maxPossibleScore J then
      rawScore title description J / maxPossibleScore J * 10 else 0) 10 = _
  rw [if_pos (maxPossibleScore_pos J), hr]


theorem pfx_append (n h t : List Char) (hp : pfx n h = true) : pfx n (h ++ t) = true := by
  induction n generalizing h with
  | nil => rfl
  | cons a as ih =>
    cases h with
    | nil => exact absurd hp (by simp [pfx])
    | cons b bs =>
      simp only [pfx, Bool.and_eq_true, decide_eq_true_eq] at hp
      simp only [List.cons_append, pfx, Bool.and_eq_true, decide_eq_true_eq]
      exact ⟨hp.1, ih bs hp.2⟩

theorem containsSub_nil_needle (h : List Char) : containsSub [] h = true := by
  cases h with
  | nil => rfl
  | cons c rest => simp [containsSub, pfx]

theorem containsSub_append_right (n h t : List Char) (hc : containsSub n h = true) :
    containsSub n (h ++ t) = true := by
  induction h with
  | nil =>
    have hn : n = [] := by
      cases n with
      | nil => rfl
      | cons a as => simp [containsSub, pfx] at hc
    subst hn
    exact containsSub_nil_needle t
  | cons c rest ih =>
    simp only [containsSub, Bool.or_eq_true] at hc
    simp only [List.cons_append, containsSub, Bool.or_eq_true]
    rcases hc with hc | hc
    · exact Or.inl (pfx_append n (c :: rest) t hc)
    · exact Or.inr (ih hc)

theorem filter_length_mono {α : Type} (l : List α) (p q : α → Bool)
    (h : ∀ x ∈ l, p x = true → q x = true) :
    (l.filter p).length ≤ (l.filter q).length := by
  induction l with
  | nil => simp
  | cons a rest ih =>
    have ih' := ih (fun x hx => h x (List.mem_cons_of_mem a hx))
    by_cases hp : p a = true
    · have hq := h a (List.mem_cons_self a rest) hp
      simp only [List.filter_cons, hp, hq, if_true, List.length_cons]
      exact Nat.succ_le_succ ih'
    · by_cases hq : q a = true
      · simp only [List.filter_cons, hp, hq, if_true, if_false, List.length_cons,
          Bool.false_eq_true]
        exact le_trans ih' (Nat.le_succ _)
      · simp only [List.filter_cons, hp, hq, if_false, Bool.false_eq_true]
        exact ih'

theorem tokenizeAux_append_sep (c : Char) (hc : isWordChar c = false) (ys : List Char) :
    ∀ xs acc, tokenizeAux (xs ++ c :: ys) acc = tokenizeAux xs acc ++ tokenizeAux ys [] := by
  intro xs
  induction xs with
  | nil =>
    intro acc
    by_cases ha : acc = [] <;> simp [tokenizeAux, hc, ha]
  | cons a rest ih =>
    intro acc
    by_cases hw : isWordChar a
    · simp [tokenizeAux, hw, ih]
    · by_cases ha : acc = [] <;> simp [tokenizeAux, hw, ha, ih]

theorem tokenSet_append_sep (c : Char) (hc : isWordChar c = false) (xs ys : List Char) :
    tokenSet (xs ++ c :: ys) = tokenSet xs ∪ tokenSet ys := by
  unfold tokenSet tokenize
  rw [tokenizeAux_append_sep c hc ys xs [], List.toFinset_append]

theorem simSets_union_mono (A B S : Finset (List Char)) (hS : S ⊆ B) :
    simSets A B ≤ simSets (A ∪ S) B := by
  by_cases hB : B = ∅
  · subst hB
    have h1 : simSets A ∅ = 0 := by unfold simSets; simp
    have h2 : simSets (A ∪ S) ∅ = 0 := by unfold simSets; simp
    rw [h1, h2]
  · by_cases hA : A = ∅
    · have h1 : simSets A B = 0 := by unfold simSets; simp [hA]
      rw [h1]
      exact simSets_nonneg _ _
    · have hAS : ¬ A ∪ S = ∅ := by
        intro h
        exact hA (Finset.union_eq_empty.mp h).1
      have hU : (A ∪ S) ∪ B = A ∪ B := by
        rw [Finset.union_assoc, Finset.union_eq_right.mpr hS]
      have hI : (A ∪ S) ∩ B = (A ∩ B) ∪ S := by
        rw [Finset.union_inter_distrib_right, (Finset.inter_eq_left).mpr hS]
      have hcardU : 0 < (A ∪ B).card := by
        rw [Finset.card_pos]
        exact (Finset.nonempty_iff_ne_empty.mpr hA).mono Finset.subset_union_left
      have hL : simSets A B = ((A ∩ B).card : ℚ) / ((A ∪ B).card : ℚ) :=
        simSets_eval A B _ _ hA hB rfl rfl hcardU
      have hR : simSets (A ∪ S) B = (((A ∩ B) ∪ S).card : ℚ) / ((A ∪ B).card : ℚ) :=
        simSets_eval (A ∪ S) B (((A ∩ B) ∪ S).card) ((A ∪ B).card) hAS hB
          (by rw [hI]) (by rw [hU]) hcardU
      rw [hL, hR]
      have hpos : (0 : ℚ) < ((A ∪ B).card : ℚ) := by exact_mod_cast hcardU
      exact (div_le_div_iff_of_pos_right hpos).mpr
        (Nat.cast_le.mpr (Finset.card_le_card Finset.subset_union_left))

/-- Claim C4, counterexample: with `required_skills = ["r"]` and no key
concepts, the asset `(title "r", description "")` scores `6.0`; appending the
text `"proficient in r studio"` — a genuine mention of the one additional
skill `"r"` by the program's own contextual matcher, which did not report
`"r"` as mentioned before the append — drops the score to `5.5`: the context
words required to make the mention genuine dilute the similarity term by
more than the `2.0` skill bonus adds. -/
theorem C4_monotonicity_counterexample :
    is_skill_mentioned "r" (combinedText "r" "") = false ∧
    is_skill_mentioned "r" (combinedText "r" "proficient in r studio") = true ∧
    calculate_asset_score "r" "proficient in r studio"
        (⟨["r"], [], 0, "", "", []⟩ : JobAnalysis) <
      calculate_asset_score "r" "" (⟨["r"], [], 0, "", "", []⟩ : JobAnalysis) := by
  refine ⟨by decide, by decide, ?_⟩
  have hmax : maxPossibleScore (⟨["r"], [], 0, "", "", []⟩ : JobAnalysis) = 5 := by
    norm_num [maxPossibleScore]
  have hsim_old : calculate_text_similarity (combinedText "r" "")
      ⟨jobTextChars (⟨["r"], [], 0, "", "", []⟩ : JobAnalysis)⟩ = 1 := by
    unfold calculate_text_similarity
    rw [simSets_eval _ _ 1 1 (by decide) (by decide) (by decide) (by decide) (by decide)]
    norm_num
  have hsim_new : calculate_text_similarity (combinedText "r" "proficient in r studio")
      ⟨jobTextChars (⟨["r"], [], 0, "", "", []⟩ : JobAnalysis)⟩ = 1 / 4 := by
    unfold calculate_text_similarity
    rw [simSets_eval _ _ 1 4 (by decide) (by decide) (by decide) (by decide) (by decide)]
    norm_num
  have hraw_old : rawScore "r" "" (⟨["r"], [], 0, "", "", []⟩ : JobAnalysis) = 3 := by
    unfold rawScore
    rw [hsim_old]
    norm_num [show ((["r"] : List String).filter (fun skill =>
        is_skill_mentioned skill (combinedText "r" ""))).length = 0 from by decide]
  have hraw_new : rawScore "r" "proficient in r studio"
      (⟨["r"], [], 0, "", "", []⟩ : JobAnalysis) = 11 / 4 := by
    unfold rawScore
    rw [hsim_new]
    norm_num [show ((["r"] : List String).filter (fun skill =>
        is_skill_mentioned skill (combinedText "r" "proficient in r studio"))).length = 1
      from by decide]
  rw [calculate_asset_score_eval _ _ _ _ hraw_new,
    calculate_asset_score_eval _ _ _ _ hraw_old, hmax]
  norm_num [min_def]

/-- Claim C4 (amended): appending a skill mention to an asset's description
never decreases the score *provided* the appended text (i) preserves every
previously reported skill mention and (ii) only introduces word tokens that
already occur in the job text (the concatenation of `required_skills` and
`key_concepts`). Mentions of ordinary catalog skills (appended as `" " +
skill`) satisfy both conditions; mentions of the short tokens `r`/`c`/`go`
need context words and can violate (ii), which is what the counterexample
exploits. -/
theorem C4_monotone_amended (J : JobAnalysis) (title d m : String)
    (h1 : ∀ skill ∈ J.required_skills,
        is_skill_mentioned skill (combinedText title d) = true →
        is_skill_mentioned skill (combinedText title ⟨d.data ++ ' ' :: m.data⟩) = true)
    (h2 : tokenSet (canon (canon m.data)) ⊆ tokenSet (canon (jobTextChars J))) :
    calculate_asset_score title d J ≤
      calculate_asset_score title ⟨d.data ++ ' ' :: m.data⟩ J := by
  have hsp : ' '.toLower = ' ' := by decide
  have hdata : (combinedText title ⟨d.data ++ ' ' :: m.data⟩).data
      = (combinedText title d).data ++ ' ' :: canon m.data := by
    show canon (title.data ++ ' ' :: (d.data ++ ' ' :: m.data))
        = canon (title.data ++ ' ' :: d.data) ++ ' ' :: canon m.data
    simp [canon, hsp, List.append_assoc]
  have hskill : ((J.required_skills.filter (fun skill =>
      is_skill_mentioned skill (combinedText title d))).length) ≤
      ((J.required_skills.filter (fun skill =>
        is_skill_mentioned skill (combinedText title ⟨d.data ++ ' ' :: m.data⟩))).length) :=
    filter_length_mono _ _ _ h1
  have hconcept : ((J.key_concepts.filter (fun concept =>
      containsSub (canon concept.data) (combinedText title d).data)).length) ≤
      ((J.key_concepts.filter (fun concept =>
        containsSub (canon concept.data)
          (combinedText title ⟨d.data ++ ' ' :: m.data⟩).data)).length) := by
    apply filter_length_mono
    intro x _ hx
    rw [hdata]
    exact containsSub_append_right _ _ _ hx
  have hsim : calculate_text_similarity (combinedText title d) ⟨jobTextChars J⟩ ≤
      calculate_text_similarity (combinedText title ⟨d.data ++ ' ' :: m.data⟩)
        ⟨jobTextChars J⟩ := by
    unfold calculate_text_similarity
    have htok : tokenSet (canon (combinedText title ⟨d.data ++ ' ' :: m.data⟩).data)
        = tokenSet (canon (combinedText title d).data) ∪ tokenSet (canon (canon m.data)) := by
      rw [hdata]
      rw [show canon ((combinedText title d).data ++ ' ' :: canon m.data)
          = canon (combinedText title d).data ++ ' ' :: canon (canon m.data) from by
        simp [canon, hsp]]
      exact tokenSet_append_sep ' ' (by decide) _ _
    rw [htok]
    exact simSets_union_mono _ _ _ h2
  have hraw : rawScore title d J ≤ rawScore title ⟨d.data ++ ' ' :: m.data⟩ J := by
    unfold rawScore
    exact add_le_add (add_le_add
      (mul_le_mul_of_nonneg_left (by exact_mod_cast hskill) (by norm_num))
      (by exact_mod_cast hconcept))
      (mul_le_mul_of_nonneg_left hsim (by norm_num))
  rw [calculate_asset_score_eval title d J _ rfl,
    calculate_asset_score_eval title ⟨d.data ++ ' ' :: m.data⟩ J _ rfl]
  exact min_le_min
    (mul_le_mul_of_nonneg_right
      ((div_le_div_iff_of_pos_right (maxPossibleScore_pos J)).mpr hraw) (by norm_num))
    (le_refl 10)

/-- Claim C4, witness for the amended claim: appending the ordinary skill
mention `" python"` (whose only token occurs in the job text) to an asset
description never lowers its score. -/
theorem C4_monotone_amended_witness :
    calculate_asset_score "Project" "a tool" (⟨["python"], [], 0, "", "", []⟩ : JobAnalysis) ≤
      calculate_asset_score "Project" ⟨"a tool".data ++ ' ' :: "python".data⟩
        (⟨["python"], [], 0, "", "", []⟩ : JobAnalysis) :=
  C4_monotone_amended _ _ _ _ (by decide) (by decide)
